import Mathlib

/-!
# Verification of the OSM routing core (ingestion pipeline + routing engine)

This file is a shallow embedding, in Lean 4, of the two core subsystems of the
repository:

* the map-data ingestion pipeline (`parseOsmData` and the tag-interpretation
  helpers `isRoadWay`, `isCarAccessible`, `isBicycleAccessible`,
  `isPedestrianAccessible`, `getSpeedForRoadType`, `getCarSpeed`, `isOneWay`,
  `getAccessibleBy` from the OSM-parser module), and
* the routing engine (`RoutingEngine`: `buildGraph`, `findClosestNodeId`,
  `setStartAndEndPoints`, `findPath`, `getNodeWithLowestFScore`,
  `reconstructPath` and their helpers).

Modelling conventions, chosen to mirror the JavaScript/TypeScript semantics of
the source:

* JavaScript numbers are modelled as `ℚ`; the value `Infinity` used for the
  initial `gScore`/`fScore`/`minDistance` is modelled by `⊤` in `WithTop ℚ`
  (`Infinity < Infinity` is false, `x < Infinity` is true for finite `x`, and
  `Infinity + x = Infinity`, exactly as in `WithTop`).
* `Map`/`Set`/object field tables are modelled as insertion-ordered association
  lists (`mapSet` updates an existing key in place and appends a fresh key at
  the end, `mapGet` finds the entry; this is exactly the iteration-order
  behaviour of a JS `Map`/object).
* The geodesic distance `calculateDistance` (haversine over floating-point
  trigonometry) is kept abstract: every engine-level definition is
  parametrised by a distance function `dist : Coordinate → Coordinate → ℚ`.
  No claim treated here depends on the concrete haversine values.
* The gzip decompression and XML parsing performed by the external libraries
  `pako` and `xml-js` are not part of the repository; their outcome is modelled
  as an `Except`-valued input to `parseOsmData` (`.error` for a
  decompression/parse failure, `.ok` for a successfully decoded document).
* `while` loops are modelled by fuel-indexed recursion with a fuel bound large
  enough for every run analysed here.
* Asynchronous suspension (`delayForAnimation`) has no semantic effect on the
  computed result and is omitted.
-/

/-! ## JS-style association-list maps -/

/-- Lookup in an insertion-ordered association list (JS `Map.get` /
object property read): the first entry with the given key. -/
def mapGet {α : Type*} (m : List (String × α)) (k : String) : Option α :=
  (m.find? (fun p => p.1 = k)).map (·.2)

/-- JS `Map.set` / object property write: replace the value of an existing key
in place, otherwise append the new binding at the end. -/
def mapSet {α : Type*} : List (String × α) → String → α → List (String × α)
  | [], k, v => [(k, v)]
  | (k', v') :: rest, k, v =>
    if k' = k then (k, v) :: rest else (k', v') :: mapSet rest k v

/-- JS `Set.add`: append if not already present. -/
def setAdd (s : List String) (x : String) : List String :=
  if x ∈ s then s else s ++ [x]

/-! ## Data model (`types.ts`) -/

/-- A latitude/longitude pair (`Coordinate` in `types.ts`); JS doubles are
modelled as rationals. -/
structure Coordinate where
  lat : ℚ
  lng : ℚ
deriving DecidableEq

/-- The `accessibleBy` classification of a road segment. -/
inductive Access where
  | car
  | bicycle
  | pedestrian
  | all
deriving DecidableEq

/-- The travel mode (`RoutingMode` in `types.ts`). -/
inductive RoutingMode where
  | car
  | bicycle
  | pedestrian
deriving DecidableEq

/-- A road segment produced by the ingestion pipeline (`RoadSegment` in
`types.ts`). -/
structure RoadSegment where
  id : String
  nodes : List Coordinate
  tags : List (String × String)
  speed : ℚ
  oneWay : Bool
  accessibleBy : Access
deriving DecidableEq

/-- The per-edge payload stored in a routing node's neighbor map. -/
structure NeighborData where
  distance : ℚ
  segmentId : String
deriving DecidableEq

/-- A graph node (`RoutingNode` in `types.ts`). `Infinity` scores are `⊤`. -/
structure RoutingNode where
  id : String
  coordinate : Coordinate
  neighbors : List (String × NeighborData)
  heuristic : ℚ
  gScore : WithTop ℚ
  fScore : WithTop ℚ
  cameFrom : Option String := none
  visited : Bool
deriving DecidableEq

/-! ## TagInterpreter (tag helpers of the OSM parser module) -/

/-- The tag table of a way: JS object built by `parseTags`. -/
abbrev Tags := List (String × String)

/-- Read a tag value (JS `tags[k]`, `undefined` ↦ `none`). -/
def getTag (tags : Tags) (k : String) : Option String :=
  mapGet tags k

/-- Source function `parseTags`: fold the `k`/`v` attribute pairs into an object
(later duplicate keys overwrite). -/
def parseTags (tagData : List (String × String)) : Tags :=
  tagData.foldl (fun m p => mapSet m p.1 p.2) []

/-- Character-list version of JS `String.prototype.startsWith`. -/
def strStartsWith : List Char → List Char → Bool
  | [], _ => true
  | _ :: _, [] => false
  | a :: as, b :: bs => a = b && strStartsWith as bs

/-- Character-list version of JS `String.prototype.includes`. -/
def strHasSub (needle : List Char) : List Char → Bool
  | [] => strStartsWith needle []
  | c :: rest => strStartsWith needle (c :: rest) || strHasSub needle rest

/-- Decimal value of a digit character. -/
def digitVal (c : Char) : ℕ :=
  c.toNat - 48

/-- Decimal value of a digit string (most significant first). -/
def digitsVal (l : List Char) : ℕ :=
  l.foldl (fun a c => 10 * a + digitVal c) 0

/-- JS `parseInt(s)` restricted to its decimal behaviour: skip leading
whitespace, read an optional sign, then the longest prefix of decimal digits;
`NaN` (no digits) ↦ `none`.  (The automatic hexadecimal `0x…` detection of the
builtin is not modelled; no claim involves such inputs.) -/
def jsParseInt (s : String) : Option ℤ :=
  let l := s.data.dropWhile (fun c => c.isWhitespace)
  let signAndRest : ℤ × List Char :=
    match l with
    | '-' :: rest => (-1, rest)
    | '+' :: rest => (1, rest)
    | _ => (1, l)
  let digs := signAndRest.2.takeWhile (fun c => c.isDigit)
  if digs.isEmpty then none
  else some (signAndRest.1 * (digitsVal digs : ℤ))

/-- Source function `isCarAccessible` (OSM parser module, lines 415–429). -/
def isCarAccessible (highway : String) (tags : Tags) : Bool :=
  let carAccessibleTypes : List String :=
    ["motorway", "trunk", "primary", "secondary", "tertiary",
     "unclassified", "residential", "service", "motorway_link",
     "trunk_link", "primary_link", "secondary_link", "tertiary_link"]
  if getTag tags "access" = some "no" ∨ getTag tags "motor_vehicle" = some "no" ∨
      getTag tags "motorcar" = some "no" then
    false
  else
    carAccessibleTypes.contains highway

/-- Source function `isBicycleAccessible` (lines 431–445). -/
def isBicycleAccessible (highway : String) (tags : Tags) : Bool :=
  let bikeAccessibleTypes : List String :=
    ["cycleway", "path", "footway", "pedestrian", "track",
     "motorway", "trunk", "primary", "secondary", "tertiary",
     "unclassified", "residential", "service", "living_street"]
  if getTag tags "bicycle" = some "no" ∨ getTag tags "access" = some "no" then
    false
  else
    bikeAccessibleTypes.contains highway

/-- Source function `isPedestrianAccessible` (lines 447–461).  Note that the source's
`pedestrianAccessibleTypes` list does contain `"motorway"`. -/
def isPedestrianAccessible (highway : String) (tags : Tags) : Bool :=
  let pedestrianAccessibleTypes : List String :=
    ["footway", "pedestrian", "path", "track", "steps",
     "motorway", "trunk", "primary", "secondary", "tertiary",
     "unclassified", "residential", "service", "living_street"]
  if getTag tags "foot" = some "no" ∨ getTag tags "access" = some "no" then
    false
  else
    pedestrianAccessibleTypes.contains highway

/-- Source function `isRoadWay` (lines 397–413); `if (!highway) return false` also rejects the
empty string (JS falsiness). -/
def isRoadWay (tags : Tags) (routingMode : RoutingMode) : Bool :=
  match getTag tags "highway" with
  | none => false
  | some highway =>
    if highway = "" then false
    else
      match routingMode with
      | .car => isCarAccessible highway tags
      | .bicycle => isBicycleAccessible highway tags
      | .pedestrian => isPedestrianAccessible highway tags

/-- The classification-table of default car speeds in `getCarSpeed`. -/
def speedMap : List (String × ℚ) :=
  [("motorway", 120), ("trunk", 100), ("primary", 80), ("secondary", 60),
   ("tertiary", 50), ("unclassified", 40), ("residential", 30), ("service", 20),
   ("motorway_link", 80), ("trunk_link", 70), ("primary_link", 60),
   ("secondary_link", 50), ("tertiary_link", 40), ("living_street", 15)]

/-- The lookup `speedMap[highway] || 50` (every table value is non-zero, hence truthy). -/
def speedMapDefault (highway : Option String) : ℚ :=
  match highway.bind (fun h => mapGet speedMap h) with
  | some v => v
  | none => 50

/-- Source function `getCarSpeed` (lines 478–511).  `highway` is `tags.highway` and may be
absent; `if (tags.maxspeed)` also rejects the empty string (JS falsiness);
`Math.round` on non-negative values is `round` on `ℚ`. -/
def getCarSpeed (highway : Option String) (tags : Tags) : ℚ :=
  match getTag tags "maxspeed" with
  | none => speedMapDefault highway
  | some ms =>
    if ms = "" then speedMapDefault highway
    else
      match jsParseInt ms with
      | some n => (n : ℚ)
      | none =>
        if strHasSub "mph".data ms.data then
          match jsParseInt ms with
          | some n => ((round ((n : ℚ) * (160934 / 100000)) : ℤ) : ℚ)
          | none => speedMapDefault highway
        else
          speedMapDefault highway

/-- Source function `getSpeedForRoadType` (lines 463–476). -/
def getSpeedForRoadType (tags : Tags) (routingMode : RoutingMode) : ℚ :=
  match routingMode with
  | .car => getCarSpeed (getTag tags "highway") tags
  | .bicycle => 20
  | .pedestrian => 5

/-- Source function `isOneWay` (lines 513–515). -/
def isOneWay (tags : Tags) : Bool :=
  match getTag tags "oneway" with
  | some v => v = "yes" || v = "true" || v = "1"
  | none => false

/-- Source function `getAccessibleBy` (lines 517–551), with the early `return`s flattened. -/
def getAccessibleBy (tags : Tags) : Access :=
  let highway := getTag tags "highway"
  let accessibleBy : Access :=
    if highway = some "motorway" ∨ highway = some "motorway_link" then .car
    else if highway = some "cycleway" then .bicycle
    else if highway = some "footway" ∨ highway = some "pedestrian" then .pedestrian
    else .all
  if getTag tags "access" = some "no" then .pedestrian
  else
    let a1 : Access :=
      if getTag tags "motor_vehicle" = some "no" ∨ getTag tags "motorcar" = some "no" then
        (if accessibleBy = .car then .bicycle else accessibleBy)
      else accessibleBy
    if getTag tags "bicycle" = some "no" ∧ a1 = .bicycle then .pedestrian
    else
      let a2 : Access := if getTag tags "bicycle" = some "no" ∧ a1 = .all then .car else a1
      if getTag tags "foot" = some "no" ∧ a2 = .pedestrian then .car
      else if getTag tags "foot" = some "no" ∧ a2 = .all then .car
      else a2

/-! ## MapIngestor (`parseOsmData`) -/

/-- A decoded `<node>` element (attributes `id`, `lat`, `lon` already parsed;
`parseFloat` of the coordinate attributes is abstracted into the stored
rational coordinate). -/
structure OsmNode where
  id : String
  coord : Coordinate

/-- A decoded `<way>` element: its `id` attribute, the `ref` attributes of its
`nd` children, and the `k`/`v` attribute pairs of its `tag` children. -/
structure OsmWay where
  id : String
  nd : List String
  tag : List (String × String)

/-- The payload under the `osm` root element. -/
structure OsmPayload where
  node : List OsmNode
  way : List OsmWay

/-- A decoded document, whose `osm` root may be missing (the source then throws
`'Invalid OSM data structure'`, caught by the surrounding `catch`). -/
structure OsmDoc where
  osm : Option OsmPayload

/-- The per-way body of the `ways.forEach` loop in `parseOsmData`
(lines 344–371): interpret the tags, and emit a `RoadSegment` when the way is a
road for the requested mode and at least 2 of its node references resolve. -/
def wayToSegment (nodes : List (String × Coordinate)) (routingMode : RoutingMode)
    (way : OsmWay) : Option RoadSegment :=
  let tags := parseTags way.tag
  if isRoadWay tags routingMode then
    let segmentNodes := way.nd.filterMap (fun ref => mapGet nodes ref)
    if 2 ≤ segmentNodes.length then
      some { id := way.id, nodes := segmentNodes, tags := tags,
             speed := getSpeedForRoadType tags routingMode,
             oneWay := isOneWay tags, accessibleBy := getAccessibleBy tags }
    else none
  else none

/-- Source function `parseOsmData` (lines 302–379).  The input models the outcome of the
external gzip decompression + XML decoding: `.error` for any
decompression/parse failure (the `catch` branch), `.ok doc` for a decoded
document.  The node table is built first (later duplicate ids overwrite), then
each way is processed in order. -/
def parseOsmData (input : Except String OsmDoc) (routingMode : RoutingMode) :
    List RoadSegment :=
  match input with
  | .error _ => []
  | .ok doc =>
    match doc.osm with
    | none => []
    | some osmData =>
      let nodes : List (String × Coordinate) :=
        osmData.node.foldl (fun m n => mapSet m n.id n.coord) []
      osmData.way.filterMap (wayToSegment nodes routingMode)

/-! ## RoutingEngine -/

/-- The node table of the engine: `this.nodes` (a JS `Map`). -/
abbrev NodesMap := List (String × RoutingNode)

/-- Source function `getNodeId` (line 62): the template literal `` `${segmentId}_${nodeIndex}` ``. -/
def getNodeId (segmentId : String) (nodeIndex : ℕ) : String :=
  segmentId ++ "_" ++ toString nodeIndex

/-- A freshly created routing node (lines 35–43). -/
def newRoutingNode (nodeId : String) (c : Coordinate) : RoutingNode :=
  { id := nodeId, coordinate := c, neighbors := [], heuristic := 0,
    gScore := ⊤, fScore := ⊤, cameFrom := none, visited := false }

/-- Source function `addNeighborConnection` (lines 86–96). -/
def addNeighborConnection (nodes : NodesMap) (fromNodeId toNodeId : String)
    (distance : ℚ) (segmentId : String) : NodesMap :=
  match mapGet nodes fromNodeId with
  | none => nodes
  | some fromNode =>
    mapSet nodes fromNodeId
      { fromNode with
        neighbors := mapSet fromNode.neighbors toNodeId ⟨distance, segmentId⟩ }

/-- Source function `isSegmentAccessible` (lines 98–110). -/
def isSegmentAccessible (routingMode : RoutingMode) (segment : RoadSegment) : Bool :=
  match routingMode with
  | .car => segment.accessibleBy = Access.car ∨ segment.accessibleBy = Access.all
  | .bicycle => segment.accessibleBy = Access.bicycle ∨ segment.accessibleBy = Access.all
  | .pedestrian => segment.accessibleBy = Access.pedestrian ∨ segment.accessibleBy = Access.all

/-- The body of `segment.nodes.forEach` in `buildGraph` (lines 31–58), with the
previous coordinate carried along (it is `segment.nodes[index - 1]`, defined
exactly when `index > 0`).  For each coordinate: create the node if absent,
then connect it to its predecessor — the edge `current → previous` is always
added; the edge `previous → current` only unless the segment is one-way and
the mode is car. -/
def buildSegmentNodes (dist : Coordinate → Coordinate → ℚ) (routingMode : RoutingMode)
    (segment : RoadSegment) :
    ℕ → Option Coordinate → List Coordinate → NodesMap → NodesMap
  | _, _, [], nodes => nodes
  | index, prev, c :: rest, nodes =>
    let nodeId := getNodeId segment.id index
    let nodes :=
      if (mapGet nodes nodeId).isSome then nodes
      else mapSet nodes nodeId (newRoutingNode nodeId c)
    let nodes :=
      match prev with
      | none => nodes
      | some prevCoord =>
        let prevNodeId := getNodeId segment.id (index - 1)
        let distance := dist c prevCoord
        let nodes := addNeighborConnection nodes nodeId prevNodeId distance segment.id
        if !segment.oneWay || routingMode ≠ .car then
          addNeighborConnection nodes prevNodeId nodeId distance segment.id
        else nodes
    buildSegmentNodes dist routingMode segment (index + 1) (some c) rest nodes

/-- Source function `buildGraph` (lines 19–60): starting from the cleared node map, process
each segment that passes the mode filter. -/
def buildGraph (dist : Coordinate → Coordinate → ℚ) (roadSegments : List RoadSegment)
    (routingMode : RoutingMode) : NodesMap :=
  roadSegments.foldl
    (fun nodes segment =>
      if isSegmentAccessible routingMode segment then
        buildSegmentNodes dist routingMode segment 0 none segment.nodes nodes
      else nodes)
    []

/-- The engine's state after construction (`constructor`, lines 10–17). -/
structure RoutingEngine where
  roadSegments : List RoadSegment
  routingMode : RoutingMode
  nodes : NodesMap
  startNodeId : Option String
  endNodeId : Option String

/-- The constructor (lines 10–17): store the inputs and build the graph. -/
def mkRoutingEngine (dist : Coordinate → Coordinate → ℚ) (roadSegments : List RoadSegment)
    (routingMode : RoutingMode) : RoutingEngine :=
  { roadSegments := roadSegments, routingMode := routingMode,
    nodes := buildGraph dist roadSegments routingMode,
    startNodeId := none, endNodeId := none }

/-- Source function `findClosestNodeId` (lines 123–136): linear scan keeping the strictly
closest node; `minDistance` starts at `Infinity` (`⊤`). -/
def findClosestNodeId (dist : Coordinate → Coordinate → ℚ) (nodes : NodesMap)
    (coord : Coordinate) : Option String :=
  (nodes.foldl
    (fun (acc : Option String × WithTop ℚ) p =>
      let d : ℚ := dist coord p.2.coordinate
      if (d : WithTop ℚ) < acc.2 then (some p.1, (d : WithTop ℚ)) else acc)
    (none, ⊤)).1

/-- Source function `setStartAndEndPoints` (lines 112–121). -/
def setStartAndEndPoints (dist : Coordinate → Coordinate → ℚ) (e : RoutingEngine)
    (startCoord endCoord : Coordinate) : RoutingEngine × (Option String × Option String) :=
  let s := findClosestNodeId dist e.nodes startCoord
  let t := findClosestNodeId dist e.nodes endCoord
  ({ e with startNodeId := s, endNodeId := t }, (s, t))

/-- Source function `calculateHeuristic` (lines 237–240): the straight-line distance. -/
def calculateHeuristic (dist : Coordinate → Coordinate → ℚ) (c1 c2 : Coordinate) : ℚ :=
  dist c1 c2

/-- Source function `getNodeWithLowestFScore` (lines 222–235). -/
def getNodeWithLowestFScore (nodes : NodesMap) (openSet : List String) : Option String :=
  (openSet.foldl
    (fun (acc : Option String × WithTop ℚ) nodeId =>
      match mapGet nodes nodeId with
      | none => acc
      | some node => if node.fScore < acc.2 then (some nodeId, node.fScore) else acc)
    (none, ⊤)).1

/-- The result record of `findPath`. -/
structure FindPathResult where
  path : List String
  examinedNodes : List String
  distance : ℚ
  time : ℚ
deriving DecidableEq

/-- Source function `findSegmentIdBetweenNodes` (lines 277–283). -/
def findSegmentIdBetweenNodes (nodes : NodesMap) (nodeId1 nodeId2 : String) : Option String :=
  match mapGet nodes nodeId1 with
  | none => none
  | some node1 => (mapGet node1.neighbors nodeId2).map (·.segmentId)

/-- The `while (currentNodeId)` loop of `reconstructPath` (lines 251–272),
fuel-indexed: prepend the current id, then follow the `cameFrom` back-pointer,
accumulating per-edge distance and time on the way. -/
def reconstructLoop (dist : Coordinate → Coordinate → ℚ) (roadSegments : List RoadSegment)
    (nodes : NodesMap) :
    ℕ → String → List String → ℚ → ℚ → List String × ℚ × ℚ
  | 0, _, path, d, t => (path, d, t)
  | fuel + 1, currentNodeId, path, totalDistance, totalTime =>
    let path := currentNodeId :: path
    match mapGet nodes currentNodeId with
    | none => (path, totalDistance, totalTime)
    | some current =>
      match current.cameFrom with
      | none => (path, totalDistance, totalTime)
      | some prevId =>
        let acc : ℚ × ℚ :=
          match mapGet nodes prevId with
          | none => (totalDistance, totalTime)
          | some cameFromNode =>
            let distance := dist current.coordinate cameFromNode.coordinate
            match findSegmentIdBetweenNodes nodes prevId currentNodeId with
            | none => (totalDistance, totalTime)
            | some segmentId =>
              match roadSegments.find? (fun s => s.id = segmentId) with
              | none => (totalDistance, totalTime)
              | some segment =>
                (totalDistance + distance, totalTime + distance / segment.speed)
        reconstructLoop dist roadSegments nodes fuel prevId path acc.1 acc.2

/-- Source function `reconstructPath` (lines 242–275). -/
def reconstructPath (dist : Coordinate → Coordinate → ℚ) (roadSegments : List RoadSegment)
    (nodes : NodesMap) (currentNode : RoutingNode) (examinedNodes : List String) :
    FindPathResult :=
  let r := reconstructLoop dist roadSegments nodes (nodes.length + 1) currentNode.id [] 0 0
  { path := r.1, examinedNodes := examinedNodes, distance := r.2.1, time := r.2.2 }

/-- The body of `currentNode.neighbors.forEach` in `findPath` (lines 188–212).
`currentNode` is a live object reference in the source, so its `visited` flag
is re-read from the node table on every callback — and it was set to `true`
immediately before the loop (line 185), which is what makes the whole
relaxation body unreachable. -/
def examineNeighbors (dist : Coordinate → Coordinate → ℚ) (roadSegments : List RoadSegment)
    (endCoord : Coordinate) (currentNodeId : String) :
    List (String × NeighborData) → NodesMap → List String → NodesMap × List String
  | [], nodes, openSet => (nodes, openSet)
  | (neighborId, neighborData) :: rest, nodes, openSet =>
    let step : NodesMap × List String :=
      match mapGet nodes currentNodeId with
      | none => (nodes, openSet)
      | some currentNode =>
        if currentNode.visited then (nodes, openSet)
        else
          match mapGet nodes neighborId with
          | none => (nodes, openSet)
          | some neighbor =>
            match roadSegments.find? (fun s => s.id = neighborData.segmentId) with
            | none => (nodes, openSet)
            | some segment =>
              let time := neighborData.distance / segment.speed
              let tentativeGScore := currentNode.gScore + (time : WithTop ℚ)
              if tentativeGScore < neighbor.gScore then
                (mapSet nodes neighborId
                  { neighbor with
                    cameFrom := some currentNodeId,
                    gScore := tentativeGScore,
                    fScore := tentativeGScore +
                      ((calculateHeuristic dist neighbor.coordinate endCoord : ℚ) : WithTop ℚ) },
                 setAdd openSet neighborId)
              else (nodes, openSet)
    examineNeighbors dist roadSegments endCoord currentNodeId rest step.1 step.2

/-- The result returned when the search ends without reaching the end node
(line 219 and the two `break`s falling through to it). -/
def noPathResult (examinedNodes : List String) : FindPathResult :=
  { path := [], examinedNodes := examinedNodes, distance := 0, time := 0 }

/-- The `while (openSet.size > 0)` loop of `findPath` (lines 169–216),
fuel-indexed: select the open node with the lowest `fScore`; if it is the end
node, reconstruct; otherwise close it, log it, and examine its neighbors. -/
def findPathLoop (dist : Coordinate → Coordinate → ℚ) (roadSegments : List RoadSegment)
    (endNodeId : String) (endCoord : Coordinate) :
    ℕ → NodesMap → List String → List String → FindPathResult
  | 0, _, _, examinedNodes => noPathResult examinedNodes
  | fuel + 1, nodes, openSet, examinedNodes =>
    if openSet.isEmpty then noPathResult examinedNodes
    else
      match getNodeWithLowestFScore nodes openSet with
      | none => noPathResult examinedNodes
      | some currentNodeId =>
        match mapGet nodes currentNodeId with
        | none => noPathResult examinedNodes
        | some currentNode =>
          if currentNodeId = endNodeId then
            reconstructPath dist roadSegments nodes currentNode examinedNodes
          else
            let openSet := openSet.erase currentNodeId
            let examinedNodes := examinedNodes ++ [currentNodeId]
            let nodes := mapSet nodes currentNodeId { currentNode with visited := true }
            let step := examineNeighbors dist roadSegments endCoord currentNodeId
              currentNode.neighbors nodes openSet
            findPathLoop dist roadSegments endNodeId endCoord fuel step.1 step.2 examinedNodes

/-- Reset of the per-search fields at the start of `findPath` (lines 156–161). -/
def resetNodes (nodes : NodesMap) : NodesMap :=
  nodes.map (fun p =>
    (p.1, { p.2 with gScore := ⊤, fScore := ⊤, visited := false, cameFrom := none }))

/-- Source function `findPath` (lines 138–220).  The two `throw new Error(...)` statements are
modelled by `Except.error` with the thrown message; a completed search is
`Except.ok`. -/
def findPath (dist : Coordinate → Coordinate → ℚ) (e : RoutingEngine) :
    Except String FindPathResult :=
  match e.startNodeId, e.endNodeId with
  | some startId, some endId =>
    match mapGet e.nodes startId, mapGet e.nodes endId with
    | some startNode, some endNode =>
      let h : ℚ := calculateHeuristic dist startNode.coordinate endNode.coordinate
      let nodes := resetNodes e.nodes
      let nodes := mapSet nodes startId
        { startNode with
          gScore := ((0 : ℚ) : WithTop ℚ),
          fScore := (h : WithTop ℚ),
          visited := false,
          cameFrom := none }
      .ok (findPathLoop dist e.roadSegments endId endNode.coordinate
        (nodes.length + 1) nodes [startId] [])
    | _, _ => .error "Start or end node not found"
  | _, _ => .error "Start and end points not set"

/-- Whether the built graph has a directed edge between two node ids. -/
def hasNeighborEdge (nodes : NodesMap) (fromId toId : String) : Bool :=
  match mapGet nodes fromId with
  | none => false
  | some n => (mapGet n.neighbors toId).isSome

/-- Source function `getNodeCoordinate` (lines 290–293). -/
def getNodeCoordinate (e : RoutingEngine) (nodeId : String) : Option Coordinate :=
  (mapGet e.nodes nodeId).map (·.coordinate)

/-- Source function `getSegmentById` (lines 295–297). -/
def getSegmentById (e : RoutingEngine) (segmentId : String) : Option RoadSegment :=
  e.roadSegments.find? (fun s => s.id = segmentId)

/-- Equality on `Except` results is decidable (used to evaluate `findPath`
results on concrete inputs). -/
instance {ε α : Type*} [DecidableEq ε] [DecidableEq α] : DecidableEq (Except ε α)
  | .error e, .error e' =>
    if h : e = e' then .isTrue (by rw [h]) else .isFalse (by simp [h])
  | .error _, .ok _ => .isFalse (by simp)
  | .ok _, .error _ => .isFalse (by simp)
  | .ok a, .ok a' =>
    if h : a = a' then .isTrue (by rw [h]) else .isFalse (by simp [h])

/-! ## Concrete instances used in the closed evaluations

`dist01` is a concrete, fully computable distance function (the discrete
metric) standing in for the haversine `calculateDistance`; the evaluations
below do not depend on the concrete geodesic values. -/

/-- The discrete metric on coordinates. -/
def dist01 (c1 c2 : Coordinate) : ℚ :=
  if c1 = c2 then 0 else 1

/-- A two-vertex, two-way road segment named `A`. -/
def segA : RoadSegment :=
  { id := "A", nodes := [⟨0, 0⟩, ⟨0, 1⟩], tags := [], speed := 30,
    oneWay := false, accessibleBy := .all }

/-- A two-vertex, two-way road segment named `B`, geographically far from
`segA` and sharing no vertex with it. -/
def segB : RoadSegment :=
  { id := "B", nodes := [⟨5, 5⟩, ⟨5, 6⟩], tags := [], speed := 30,
    oneWay := false, accessibleBy := .all }

/-- A two-vertex one-way segment (`oneway=yes`). -/
def segOW : RoadSegment :=
  { id := "A", nodes := [⟨0, 0⟩, ⟨0, 1⟩], tags := [("oneway", "yes")], speed := 30,
    oneWay := true, accessibleBy := .all }

/-- Engine over the single connected segment `segA` in car mode, with the
endpoints resolved to the two vertices of `segA`. -/
def engAB : RoutingEngine :=
  (setStartAndEndPoints dist01 (mkRoutingEngine dist01 [segA] .car) ⟨0, 0⟩ ⟨0, 1⟩).1

/-- Engine over the single connected segment `segA` in car mode, with both
endpoints resolved to the same vertex `A_0`. -/
def engSame : RoutingEngine :=
  (setStartAndEndPoints dist01 (mkRoutingEngine dist01 [segA] .car) ⟨0, 0⟩ ⟨0, 0⟩).1

/-- Engine over the two disconnected segments `segA` and `segB` in car mode,
with the start resolved into `segA`'s component and the end into `segB`'s. -/
def engDisc : RoutingEngine :=
  (setStartAndEndPoints dist01 (mkRoutingEngine dist01 [segA, segB] .car) ⟨0, 0⟩ ⟨5, 5⟩).1

/-- A decoded OSM document with one `highway=motorway` way (no access tags)
whose two node references resolve. -/
def docMotorway : OsmDoc :=
  { osm := some
      { node := [⟨"n1", ⟨0, 0⟩⟩, ⟨"n2", ⟨0, 1⟩⟩],
        way := [⟨"w1", ["n1", "n2"], [("highway", "motorway")]⟩] } }

/-- A decoded OSM document with one `highway=residential` way carrying
`maxspeed=0`. -/
def docZeroMax : OsmDoc :=
  { osm := some
      { node := [⟨"n1", ⟨0, 0⟩⟩, ⟨"n2", ⟨0, 1⟩⟩],
        way := [⟨"w1", ["n1", "n2"], [("highway", "residential"), ("maxspeed", "0")]⟩] } }

/-- A decoded OSM document with one plain `highway=residential` way. -/
def docResidential : OsmDoc :=
  { osm := some
      { node := [⟨"n1", ⟨0, 0⟩⟩, ⟨"n2", ⟨0, 1⟩⟩],
        way := [⟨"w1", ["n1", "n2"], [("highway", "residential")]⟩] } }

/-- The road segment parsed from `docResidential` in car mode. -/
def segResidential : RoadSegment :=
  { id := "w1", nodes := [⟨0, 0⟩, ⟨0, 1⟩], tags := [("highway", "residential")],
    speed := 30, oneWay := false, accessibleBy := Access.all }

/-! ## General lemmas about the JS map model -/

@[simp] theorem mapGet_nil {α : Type*} (k : String) :
    mapGet ([] : List (String × α)) k = none := rfl

theorem mapGet_cons {α : Type*} (k' : String) (v' : α) (rest : List (String × α)) (k : String) :
    mapGet ((k', v') :: rest) k = if k' = k then some v' else mapGet rest k := by
  by_cases h : k' = k <;> simp [mapGet, List.find?, h]

@[simp] theorem mapGet_mapSet_self {α : Type*} (m : List (String × α)) (k : String) (v : α) :
    mapGet (mapSet m k v) k = some v := by
  induction m with
  | nil => simp [mapSet, mapGet_cons]
  | cons p rest ih =>
    obtain ⟨a, b⟩ := p
    by_cases h : a = k
    · simp [mapSet, h, mapGet_cons]
    · simp [mapSet, h, mapGet_cons, ih]

@[simp] theorem mapGet_mapSet_ne {α : Type*} (m : List (String × α)) (k k' : String) (v : α)
    (h : k ≠ k') : mapGet (mapSet m k v) k' = mapGet m k' := by
  induction m with
  | nil => simp [mapSet, mapGet_cons, h]
  | cons p rest ih =>
    obtain ⟨a, b⟩ := p
    by_cases hp : a = k
    · subst hp; simp [mapSet, mapGet_cons, h, Ne.symm h]
    · by_cases hp' : a = k' <;> simp [mapSet, hp, hp', mapGet_cons, ih, Ne.symm h]

theorem mapGet_eq_some_mem {α : Type*} {m : List (String × α)} {k : String} {v : α}
    (h : mapGet m k = some v) : (k, v) ∈ m := by
  induction m with
  | nil => simp [mapGet] at h
  | cons p rest ih =>
    obtain ⟨a, b⟩ := p
    rw [mapGet_cons] at h
    by_cases ha : a = k
    · simp only [ha, if_true, Option.some.injEq] at h
      subst ha; subst h; exact List.mem_cons_self _ _
    · simp only [ha, if_false] at h
      exact List.mem_cons_of_mem _ (ih h)

/-! ## Speed-table lemmas -/

theorem speedMapDefault_pos (highway : Option String) : 0 < speedMapDefault highway := by
  cases highway with
  | none => norm_num [speedMapDefault]
  | some s =>
    cases hm : mapGet speedMap s with
    | none => norm_num [speedMapDefault, hm]
    | some v =>
      have hall : ∀ p ∈ speedMap, (0 : ℚ) < p.2 := by decide
      have hv := hall _ (mapGet_eq_some_mem hm)
      simpa [speedMapDefault, hm] using hv

theorem getCarSpeed_pos_or (highway : Option String) (tags : Tags) :
    0 < getCarSpeed highway tags ∨
      ∃ ms n, getTag tags "maxspeed" = some ms ∧ ms ≠ "" ∧ jsParseInt ms = some n ∧ n ≤ 0 := by
  unfold getCarSpeed
  cases hms : getTag tags "maxspeed" with
  | none => exact Or.inl (speedMapDefault_pos highway)
  | some ms =>
    by_cases hemp : ms = ""
    · simp only [hemp, if_true]
      exact Or.inl (speedMapDefault_pos highway)
    · simp only [hemp, if_false]
      cases hp : jsParseInt ms with
      | some n =>
        rcases le_or_lt n 0 with hn | hn
        · exact Or.inr ⟨ms, n, rfl, hemp, hp, hn⟩
        · refine Or.inl ?_
          show (0 : ℚ) < (n : ℚ)
          exact_mod_cast hn
      | none =>
        refine Or.inl ?_
        by_cases hsub : strHasSub "mph".data ms.data
        · simp only [hsub, if_true]
          exact speedMapDefault_pos highway
        · simp only [hsub, if_false]
          exact speedMapDefault_pos highway

/-! ## Claims about the ingestion pipeline -/

/-- Claim C5: `parseOsmData` never raises: it is a total function of the decode
outcome, and any decompression/parse failure (the `.error` case, i.e. the
`catch` branch of the source) as well as a decoded document without an `osm`
root (the `throw` at line 317, caught by the same `catch`) yields the empty
segment list. -/
theorem parseOsmData_empty_on_error :
    (∀ (msg : String) (mode : RoutingMode), parseOsmData (.error msg) mode = []) ∧
    (∀ (mode : RoutingMode), parseOsmData (.ok ⟨none⟩) mode = []) :=
  ⟨fun _ _ => rfl, fun _ => rfl⟩

/-- Claim C2 counterexample: The claim says a `highway=motorway` way with no
access tags is inadmissible for pedestrians and never becomes a `RoadSegment`
in pedestrian mode.  In the source, `"motorway"` is a member of
`pedestrianAccessibleTypes`, so the admissibility check returns `true` and the
way is parsed into a segment. -/
theorem motorway_pedestrian_admissible_cex :
    isPedestrianAccessible "motorway" [("highway", "motorway")] = true ∧
    isRoadWay [("highway", "motorway")] RoutingMode.pedestrian = true ∧
    (parseOsmData (.ok docMotorway) RoutingMode.pedestrian).length = 1 := by
  refine ⟨by decide, by decide, by decide⟩

/-- Claim C2 amended: For every tag mapping with `highway=motorway` and no
access tags, the pedestrian admissibility check returns `true` (admissible),
and the way's coarse accessibility classification is `car` — so the segment is
produced in pedestrian mode but filtered out later by the graph builder's
`isSegmentAccessible` mode filter. -/
theorem motorway_pedestrian_admissibility (tags : Tags)
    (hhw : getTag tags "highway" = some "motorway")
    (hacc : getTag tags "access" = none)
    (hfoot : getTag tags "foot" = none)
    (hmv : getTag tags "motor_vehicle" = none)
    (hmc : getTag tags "motorcar" = none)
    (hbike : getTag tags "bicycle" = none) :
    isPedestrianAccessible "motorway" tags = true ∧
    isRoadWay tags RoutingMode.pedestrian = true ∧
    getAccessibleBy tags = Access.car ∧
    (∀ seg : RoadSegment, seg.accessibleBy = Access.car →
      isSegmentAccessible RoutingMode.pedestrian seg = false) := by
  refine ⟨?_, ?_, ?_, ?_⟩
  · simp [isPedestrianAccessible, hacc, hfoot]
  · simp [isRoadWay, hhw, isPedestrianAccessible, hacc, hfoot]
  · simp [getAccessibleBy, hhw, hacc, hfoot, hmv, hmc, hbike]
  · intro seg hseg
    simp [isSegmentAccessible, hseg]

/-- Witness for `motorway_pedestrian_admissibility` at a concrete tag table. -/
theorem motorway_pedestrian_admissibility_witness :
    isPedestrianAccessible "motorway" [("highway", "motorway")] = true ∧
    isRoadWay [("highway", "motorway")] RoutingMode.pedestrian = true ∧
    getAccessibleBy [("highway", "motorway")] = Access.car ∧
    (∀ seg : RoadSegment, seg.accessibleBy = Access.car →
      isSegmentAccessible RoutingMode.pedestrian seg = false) :=
  motorway_pedestrian_admissibility [("highway", "motorway")]
    (by decide) (by decide) (by decide) (by decide) (by decide) (by decide)

/-- Claim C3: The claim says a `maxspeed` value with the `mph` unit is converted
(×1.60934, rounded — for `"50 mph"` that would be `80`).  In the source,
`parseInt("50 mph")` already succeeds with `50`, so the `mph` conversion
branch is unreachable and `getCarSpeed` returns the raw `50`; the fallback to
the classification table for unparseable values (e.g. `"none"`) does hold. -/
theorem getCarSpeed_mph_not_converted :
    getCarSpeed (some "residential")
      [("highway", "residential"), ("maxspeed", "50 mph")] = 50 ∧
    (((round ((50 : ℚ) * (160934 / 100000)) : ℤ) : ℚ) = 80) ∧
    jsParseInt "50 mph" = some 50 ∧
    getCarSpeed (some "residential")
      [("highway", "residential"), ("maxspeed", "none")] = 30 := by
  refine ⟨by decide, ?_, by decide, by decide⟩
  norm_num [round_eq]

/-- Claim C4 counterexample: The claim says every emitted `RoadSegment` has
speed strictly greater than `0`.  A way with `maxspeed=0` parses to speed `0`
in car mode. -/
theorem parse_zero_speed_cex :
    (parseOsmData (.ok docZeroMax) RoutingMode.car).map RoadSegment.speed = [0] ∧
    (parseOsmData (.ok docZeroMax) RoutingMode.car).length = 1 := by
  refine ⟨by decide, by decide⟩

/-- Claim C4 amended: Every `RoadSegment` emitted by `parseOsmData` has a
polyline of length at least 2; its speed is strictly positive unless the mode
is car and the way carries an explicit non-empty `maxspeed` tag whose leading
integer is ≤ 0 (such a value is used as-is). -/
theorem parse_segment_invariant (input : Except String OsmDoc) (mode : RoutingMode)
    (seg : RoadSegment) (h : seg ∈ parseOsmData input mode) :
    2 ≤ seg.nodes.length ∧
      (0 < seg.speed ∨
        (mode = RoutingMode.car ∧
          ∃ ms n, getTag seg.tags "maxspeed" = some ms ∧ ms ≠ "" ∧
            jsParseInt ms = some n ∧ n ≤ 0)) := by
  match input with
  | .error msg => simp [parseOsmData] at h
  | .ok doc =>
    match hosm : doc.osm with
    | none => simp [parseOsmData, hosm] at h
    | some payload =>
      simp only [parseOsmData, hosm] at h
      obtain ⟨way, _hwmem, hws⟩ := List.mem_filterMap.mp h
      unfold wayToSegment at hws
      set tags := parseTags way.tag with htags
      by_cases hroad : isRoadWay tags mode
      · simp only [hroad, if_true] at hws
        by_cases hlen :
            2 ≤ (way.nd.filterMap (fun ref => mapGet
              (payload.node.foldl (fun m n => mapSet m n.id n.coord) []) ref)).length
        · simp only [hlen, if_true, Option.some.injEq] at hws
          subst hws
          refine ⟨hlen, ?_⟩
          match mode with
          | .bicycle => exact Or.inl (by norm_num [getSpeedForRoadType])
          | .pedestrian => exact Or.inl (by norm_num [getSpeedForRoadType])
          | .car =>
            simp only [getSpeedForRoadType]
            rcases getCarSpeed_pos_or (getTag tags "highway") tags with hpos | hneg
            · exact Or.inl hpos
            · exact Or.inr ⟨trivial, hneg⟩
        · simp [hlen] at hws
      · simp [hroad] at hws

/-- The segment that `parseOsmData` produces from `docResidential` in car
mode. -/
theorem parse_docResidential :
    parseOsmData (.ok docResidential) RoutingMode.car =
      [{ id := "w1", nodes := [⟨0, 0⟩, ⟨0, 1⟩], tags := [("highway", "residential")],
         speed := 30, oneWay := false, accessibleBy := Access.all }] := by
  decide

/-- Witness for `parse_segment_invariant` at a concrete document. -/
theorem parse_segment_invariant_witness :
    2 ≤ segResidential.nodes.length ∧
      (0 < segResidential.speed ∨
        (RoutingMode.car = RoutingMode.car ∧
          ∃ ms n, getTag segResidential.tags "maxspeed" = some ms ∧ ms ≠ "" ∧
            jsParseInt ms = some n ∧ n ≤ 0)) :=
  parse_segment_invariant (.ok docResidential) RoutingMode.car segResidential (by decide)


/-! ## Engine lemmas -/

theorem getNodeWithLowestFScore_singleton (nodes : NodesMap) (s : String)
    (n : RoutingNode) (q : ℚ) (hn : mapGet nodes s = some n)
    (hf : n.fScore = (q : WithTop ℚ)) :
    getNodeWithLowestFScore nodes [s] = some s := by
  simp [getNodeWithLowestFScore, hn, hf]

theorem reconstructLoop_ne_nil (dist : Coordinate → Coordinate → ℚ)
    (roadSegments : List RoadSegment) (nodes : NodesMap) :
    ∀ (fuel : ℕ) (cid : String) (path : List String) (d t : ℚ),
      path ≠ [] ∨ fuel ≠ 0 →
      (reconstructLoop dist roadSegments nodes fuel cid path d t).1 ≠ [] := by
  intro fuel
  induction fuel with
  | zero =>
    intro cid path d t h
    rcases h with h | h
    · simpa [reconstructLoop] using h
    · exact absurd rfl h
  | succ f ih =>
    intro cid path d t _
    simp only [reconstructLoop]
    split
    · simp
    · split
      · simp
      · exact ih _ (cid :: path) _ _ (Or.inl (by simp))

theorem reconstructPath_path_ne_nil (dist : Coordinate → Coordinate → ℚ)
    (roadSegments : List RoadSegment) (nodes : NodesMap) (currentNode : RoutingNode)
    (examinedNodes : List String) :
    (reconstructPath dist roadSegments nodes currentNode examinedNodes).path ≠ [] := by
  unfold reconstructPath
  exact reconstructLoop_ne_nil dist roadSegments nodes _ _ _ _ _ (Or.inr (by simp))

theorem findPathLoop_empty_frontier (dist : Coordinate → Coordinate → ℚ)
    (roadSegments : List RoadSegment) (endNodeId : String) (endCoord : Coordinate)
    (fuel : ℕ) (nodes : NodesMap) (examinedNodes : List String) :
    findPathLoop dist roadSegments endNodeId endCoord fuel nodes [] examinedNodes =
      noPathResult examinedNodes := by
  cases fuel with
  | zero => rfl
  | succ f => simp [findPathLoop]

/-- Every run of the search loop ends either at the no-path return or at a
call to `reconstructPath` (the end node was selected for expansion). -/
theorem findPathLoop_cases (dist : Coordinate → Coordinate → ℚ)
    (roadSegments : List RoadSegment) (endNodeId : String) (endCoord : Coordinate) :
    ∀ (fuel : ℕ) (nodes : NodesMap) (openSet examinedNodes : List String),
      (∃ ex, findPathLoop dist roadSegments endNodeId endCoord fuel nodes openSet
          examinedNodes = noPathResult ex) ∨
        (∃ nodes' cn ex, findPathLoop dist roadSegments endNodeId endCoord fuel nodes openSet
          examinedNodes = reconstructPath dist roadSegments nodes' cn ex) := by
  intro fuel
  induction fuel with
  | zero => intro nodes openSet ex; exact Or.inl ⟨ex, rfl⟩
  | succ f ih =>
    intro nodes openSet ex
    rw [findPathLoop]
    split
    · exact Or.inl ⟨ex, rfl⟩
    · split
      · exact Or.inl ⟨ex, rfl⟩
      · split
        · exact Or.inl ⟨ex, rfl⟩
        · split
          · exact Or.inr ⟨nodes, _, ex, rfl⟩
          · exact ih _ _ _

theorem findPathLoop_path_empty_zeroes (dist : Coordinate → Coordinate → ℚ)
    (roadSegments : List RoadSegment) (endNodeId : String) (endCoord : Coordinate)
    (fuel : ℕ) (nodes : NodesMap) (openSet examinedNodes : List String)
    (hpath : (findPathLoop dist roadSegments endNodeId endCoord fuel nodes openSet
      examinedNodes).path = []) :
    findPathLoop dist roadSegments endNodeId endCoord fuel nodes openSet examinedNodes =
      noPathResult (findPathLoop dist roadSegments endNodeId endCoord fuel nodes openSet
        examinedNodes).examinedNodes := by
  rcases findPathLoop_cases dist roadSegments endNodeId endCoord fuel nodes openSet
      examinedNodes with ⟨ex', hex⟩ | ⟨nodes', cn, ex', hex⟩
  · rw [hex]; rfl
  · rw [hex] at hpath
    exact absurd hpath (reconstructPath_path_ne_nil dist roadSegments nodes' cn ex')

theorem findPathLoop_singleton_end (dist : Coordinate → Coordinate → ℚ)
    (roadSegments : List RoadSegment) (endNodeId : String) (endCoord : Coordinate)
    (fuel : ℕ) (nodes : NodesMap) (n : RoutingNode) (q : ℚ)
    (hn : mapGet nodes endNodeId = some n) (hf : n.fScore = (q : WithTop ℚ)) :
    findPathLoop dist roadSegments endNodeId endCoord (fuel + 1) nodes [endNodeId] [] =
      reconstructPath dist roadSegments nodes n [] := by
  have hlow := getNodeWithLowestFScore_singleton nodes endNodeId n q hn hf
  rw [findPathLoop]
  simp [hlow, hn]

theorem reconstructPath_no_cameFrom (dist : Coordinate → Coordinate → ℚ)
    (roadSegments : List RoadSegment) (nodes : NodesMap) (n m : RoutingNode)
    (s : String) (examinedNodes : List String) (hids : n.id = s)
    (hn : mapGet nodes s = some m) (hcf : m.cameFrom = none) :
    reconstructPath dist roadSegments nodes n examinedNodes =
      { path := [s], examinedNodes := examinedNodes, distance := 0, time := 0 } := by
  unfold reconstructPath
  rw [reconstructLoop, hids]
  simp [hn, hcf]

/-! ## Claims about the routing engine -/

/-- Claim C1: The claim says `findPath` on a graph where the resolved start and
end lie in the same connected component returns a non-empty path from start to
end.  In the source, the neighbor loop's guard `if (currentNode.visited)
return` (line 189) is evaluated after `currentNode.visited = true` (line 185),
so no neighbor is ever relaxed and the search can never reach an end node
different from the start: on the connected two-node graph below (edges in both
directions between `A_0` and `A_1`), `findPath` returns an empty path. -/
theorem findPath_connected_returns_empty_path :
    engAB.startNodeId = some "A_0" ∧ engAB.endNodeId = some "A_1" ∧
    hasNeighborEdge engAB.nodes "A_0" "A_1" = true ∧
    hasNeighborEdge engAB.nodes "A_1" "A_0" = true ∧
    findPath dist01 engAB =
      .ok { path := [], examinedNodes := ["A_0"], distance := 0, time := 0 } := by
  refine ⟨by decide, by decide, by decide, by decide, by decide⟩

/-- Claim C9: The claim says that with start and end in disjoint components the
examined-node log contains exactly the nodes of the start's component.  Because
of the same dead neighbor loop (line 189), the log only ever contains the
start node itself: here `A_1` is in the start's component (edges in both
directions with `A_0`) but the log is `["A_0"]`. -/
theorem findPath_disconnected_examines_only_start :
    engDisc.startNodeId = some "A_0" ∧ engDisc.endNodeId = some "B_0" ∧
    hasNeighborEdge engDisc.nodes "A_0" "A_1" = true ∧
    hasNeighborEdge engDisc.nodes "A_1" "A_0" = true ∧
    hasNeighborEdge engDisc.nodes "A_0" "B_0" = false ∧
    findPath dist01 engDisc =
      .ok { path := [], examinedNodes := ["A_0"], distance := 0, time := 0 } := by
  refine ⟨by decide, by decide, by decide, by decide, by decide, by decide⟩

/-- Claim C10: If both resolved endpoints are the same node id `s` present in
the graph, `findPath` returns the singleton path `[s]`, an empty examined-node
log, distance `0`, and time `0`: the very first frontier selection picks `s`,
which is the end node, and path reconstruction stops at the reset (absent)
back-pointer. -/
theorem findPath_same_endpoint (dist : Coordinate → Coordinate → ℚ) (e : RoutingEngine)
    (s : String) (node : RoutingNode)
    (hs : e.startNodeId = some s) (he : e.endNodeId = some s)
    (hn : mapGet e.nodes s = some node) (hid : node.id = s) :
    findPath dist e =
      .ok { path := [s], examinedNodes := [], distance := 0, time := 0 } := by
  simp only [findPath, hs, he, hn]
  rw [findPathLoop_singleton_end dist e.roadSegments s node.coordinate _ _ _
    (calculateHeuristic dist node.coordinate node.coordinate)
    (mapGet_mapSet_self _ _ _) rfl]
  refine congrArg Except.ok
    (reconstructPath_no_cameFrom dist e.roadSegments _ _ _ s [] ?_
      (mapGet_mapSet_self _ _ _) rfl)
  exact hid

/-- Witness for `findPath_same_endpoint` on a concrete engine whose two
endpoints both resolve to `A_0`. -/
theorem findPath_same_endpoint_witness :
    findPath dist01 engSame =
      .ok { path := ["A_0"], examinedNodes := [], distance := 0, time := 0 } :=
  findPath_same_endpoint dist01 engSame "A_0"
    { id := "A_0", coordinate := ⟨0, 0⟩,
      neighbors := [("A_1", ⟨1, "A"⟩)], heuristic := 0,
      gScore := ⊤, fScore := ⊤, cameFrom := none, visited := false }
    (by decide) (by decide) (by decide) (by decide)

/-- Claim C7: When the frontier (open set) empties — or the search loop
otherwise ends — without the end node being selected for expansion, `findPath`
returns, without raising, an empty path, the examined-node log accumulated so
far, and distance `0` and time `0`.  The first conjunct is the empty-frontier
exit itself; the second says a completed search (resolved endpoints make
`findPath` return `.ok`) whose path is empty is exactly that no-path record
carrying its own accumulated log. -/
theorem findPath_no_path_zeroes :
    (∀ (dist : Coordinate → Coordinate → ℚ) (roadSegments : List RoadSegment)
        (endNodeId : String) (endCoord : Coordinate) (fuel : ℕ) (nodes : NodesMap)
        (examinedNodes : List String),
        findPathLoop dist roadSegments endNodeId endCoord fuel nodes [] examinedNodes =
          noPathResult examinedNodes) ∧
    (∀ (dist : Coordinate → Coordinate → ℚ) (e : RoutingEngine) (s t : String),
        e.startNodeId = some s → e.endNodeId = some t →
        (mapGet e.nodes s).isSome → (mapGet e.nodes t).isSome →
        ∃ r, findPath dist e = .ok r ∧
          (r.path = [] → r = noPathResult r.examinedNodes)) := by
  constructor
  · exact fun dist segs endId endCoord fuel nodes ex =>
      findPathLoop_empty_frontier dist segs endId endCoord fuel nodes ex
  · intro dist e s t hs ht hss hts
    obtain ⟨sN, hsn⟩ := Option.isSome_iff_exists.mp hss
    obtain ⟨tN, htn⟩ := Option.isSome_iff_exists.mp hts
    obtain ⟨r, hr⟩ : ∃ r, findPath dist e = .ok r := by
      simp only [findPath, hs, ht, hsn, htn]
      exact ⟨_, rfl⟩
    refine ⟨r, hr, fun hp => ?_⟩
    simp only [findPath, hs, ht, hsn, htn] at hr
    injection hr with h
    subst h
    exact findPathLoop_path_empty_zeroes _ _ _ _ _ _ _ _ hp

/-- Witness for `findPath_no_path_zeroes` on the concrete disconnected
engine. -/
theorem findPath_no_path_zeroes_witness :
    ∃ r, findPath dist01 engDisc = .ok r ∧
      (r.path = [] → r = noPathResult r.examinedNodes) :=
  findPath_no_path_zeroes.2 dist01 engDisc "A_0" "B_0"
    (by decide) (by decide) (by decide) (by decide)

theorem findClosest_foldl_isSome (dist : Coordinate → Coordinate → ℚ) (coord : Coordinate) :
    ∀ (l : NodesMap) (acc : Option String × WithTop ℚ), acc.1.isSome →
      ((l.foldl
        (fun (acc : Option String × WithTop ℚ) p =>
          let d : ℚ := dist coord p.2.coordinate
          if (d : WithTop ℚ) < acc.2 then (some p.1, (d : WithTop ℚ)) else acc)
        acc).1).isSome := by
  intro l
  induction l with
  | nil => intro acc h; simpa using h
  | cons p rest ih =>
    intro acc h
    rw [List.foldl_cons]
    apply ih
    dsimp only
    split
    · rfl
    · exact h

/-- Claim C8: `findPath` raises an error exactly when an endpoint was never set
or fails to resolve to a graph node; and the nearest-node scan
(`findClosestNodeId`, used by `setStartAndEndPoints`) returns `null` exactly
when the graph has no nodes — it has no maximum-distance cutoff, so a
non-empty graph always yields a node. -/
theorem findPath_error_iff :
    (∀ (dist : Coordinate → Coordinate → ℚ) (e : RoutingEngine),
      (∃ msg, findPath dist e = .error msg) ↔
        (e.startNodeId = none ∨ e.endNodeId = none ∨
          (∃ s, e.startNodeId = some s ∧ mapGet e.nodes s = none) ∨
          (∃ t, e.endNodeId = some t ∧ mapGet e.nodes t = none))) ∧
    (∀ (dist : Coordinate → Coordinate → ℚ) (nodes : NodesMap) (coord : Coordinate),
      findClosestNodeId dist nodes coord = none ↔ nodes = []) := by
  constructor
  · intro dist e
    constructor
    · rintro ⟨msg, hmsg⟩
      by_cases h1 : e.startNodeId = none
      · exact Or.inl h1
      obtain ⟨s, hs⟩ := Option.ne_none_iff_exists'.mp h1
      by_cases h2 : e.endNodeId = none
      · exact Or.inr (Or.inl h2)
      obtain ⟨t, ht⟩ := Option.ne_none_iff_exists'.mp h2
      cases hsn : mapGet e.nodes s with
      | none => exact Or.inr (Or.inr (Or.inl ⟨s, hs, hsn⟩))
      | some sN =>
        cases htn : mapGet e.nodes t with
        | none => exact Or.inr (Or.inr (Or.inr ⟨t, ht, htn⟩))
        | some tN =>
          exfalso
          simp only [findPath, hs, ht, hsn, htn] at hmsg
          exact Except.noConfusion hmsg
    · rintro (h | h | ⟨s, hs, hn⟩ | ⟨t, ht, hn⟩)
      · exact ⟨"Start and end points not set", by simp only [findPath, h]⟩
      · cases hs : e.startNodeId with
        | none => exact ⟨"Start and end points not set", by simp only [findPath, hs, h]⟩
        | some s => exact ⟨"Start and end points not set", by simp only [findPath, hs, h]⟩
      · cases ht : e.endNodeId with
        | none => exact ⟨"Start and end points not set", by simp only [findPath, hs, ht]⟩
        | some t =>
          cases htn : mapGet e.nodes t with
          | none =>
            exact ⟨"Start or end node not found", by simp only [findPath, hs, ht, hn, htn]⟩
          | some tN =>
            exact ⟨"Start or end node not found", by simp only [findPath, hs, ht, hn, htn]⟩
      · cases hs : e.startNodeId with
        | none => exact ⟨"Start and end points not set", by simp only [findPath, hs]⟩
        | some s =>
          cases hsn : mapGet e.nodes s with
          | none =>
            exact ⟨"Start or end node not found", by simp only [findPath, hs, ht, hsn]⟩
          | some sN =>
            exact ⟨"Start or end node not found", by simp only [findPath, hs, ht, hsn, hn]⟩
  · intro dist nodes coord
    constructor
    · intro hnone
      cases hng : nodes with
      | nil => rfl
      | cons p rest =>
        exfalso
        rw [hng] at hnone
        unfold findClosestNodeId at hnone
        rw [List.foldl_cons] at hnone
        simp only [WithTop.coe_lt_top, if_true] at hnone
        have hsome := findClosest_foldl_isSome dist coord rest
          (some p.1, ((dist coord p.2.coordinate : ℚ) : WithTop ℚ)) rfl
        rw [hnone] at hsome
        simp at hsome
    · intro h
      subst h
      rfl

/-- Witness for `findPath_error_iff`: on the empty graph the nearest-node scan
returns `null`, and on `engAB` (resolved endpoints) `findPath` does not
raise. -/
theorem findPath_error_iff_witness :
    findClosestNodeId dist01 [] ⟨0, 0⟩ = none ∧
      ¬(∃ msg, findPath dist01 engAB = .error msg) :=
  ⟨(findPath_error_iff.2 dist01 [] ⟨0, 0⟩).mpr rfl,
    fun h => by
      rcases (findPath_error_iff.1 dist01 engAB).mp h with h' | h' | ⟨s, hs, hn⟩ | ⟨t, ht, hn⟩
      · exact absurd h' (by decide)
      · exact absurd h' (by decide)
      · rw [show s = "A_0" by
          have : some s = some "A_0" := by rw [← hs]; decide
          exact Option.some.inj this] at hn
        exact absurd hn (by decide)
      · rw [show t = "A_1" by
          have : some t = some "A_1" := by rw [← ht]; decide
          exact Option.some.inj this] at hn
        exact absurd hn (by decide)⟩

/-! ## Digit-string lemmas: `Nat.repr` is injective and underscore-free

`getNodeId` concatenates the segment id, `"_"`, and the decimal numeral of the
vertex index; these lemmas make that encoding injective. -/

theorem toDigitsCore_append (f : ℕ) :
    ∀ (n : ℕ) (ds : List Char),
      Nat.toDigitsCore 10 f n ds = Nat.toDigitsCore 10 f n [] ++ ds := by
  induction f with
  | zero => intro n ds; simp [Nat.toDigitsCore]
  | succ f ih =>
    intro n ds
    simp only [Nat.toDigitsCore]
    by_cases h : n / 10 = 0
    · simp [h]
    · simp only [h, if_false]
      rw [ih (n / 10) (Nat.digitChar (n % 10) :: ds),
        ih (n / 10) [Nat.digitChar (n % 10)], List.append_assoc]
      rfl

theorem toDigitsCore_fuel (n : ℕ) :
    ∀ (f f' : ℕ), n < f → n < f' →
      Nat.toDigitsCore 10 f n [] = Nat.toDigitsCore 10 f' n [] := by
  induction n using Nat.strong_induction_on with
  | _ n ih =>
    intro f f' hf hf'
    cases f with
    | zero => omega
    | succ a =>
      cases f' with
      | zero => omega
      | succ b =>
        simp only [Nat.toDigitsCore]
        by_cases h : n / 10 = 0
        · simp [h]
        · simp only [h, if_false]
          rw [toDigitsCore_append a, toDigitsCore_append b]
          have hlt : n / 10 < n := Nat.div_lt_self (by omega) (by norm_num)
          rw [ih (n / 10) hlt a b (by omega) (by omega)]

theorem toDigits_lt_ten (n : ℕ) (h : n < 10) :
    Nat.toDigits 10 n = [Nat.digitChar n] := by
  unfold Nat.toDigits
  simp only [Nat.toDigitsCore]
  rw [Nat.div_eq_of_lt h, Nat.mod_eq_of_lt h]
  simp

theorem toDigits_ge_ten (n : ℕ) (h : 10 ≤ n) :
    Nat.toDigits 10 n = Nat.toDigits 10 (n / 10) ++ [Nat.digitChar (n % 10)] := by
  unfold Nat.toDigits
  simp only [Nat.toDigitsCore]
  have h0 : ¬ n / 10 = 0 := by
    intro hc
    have := Nat.div_eq_of_lt (show n < 10 by omega)
    omega
  simp only [h0, if_false]
  rw [toDigitsCore_append n]
  congr 1
  exact toDigitsCore_fuel (n / 10) n (n / 10 + 1)
    (Nat.div_lt_self (by omega) (by norm_num)) (by omega)

theorem digitVal_digitChar (m : ℕ) (h : m < 10) :
    digitVal (Nat.digitChar m) = m := by
  interval_cases m <;> rfl

theorem digitChar_ne_underscore (m : ℕ) (h : m < 10) :
    Nat.digitChar m ≠ '_' := by
  interval_cases m <;> decide

theorem digitsVal_append_singleton (l : List Char) (c : Char) :
    digitsVal (l ++ [c]) = 10 * digitsVal l + digitVal c := by
  simp [digitsVal, List.foldl_append]

theorem digitsVal_toDigits (n : ℕ) : digitsVal (Nat.toDigits 10 n) = n := by
  induction n using Nat.strong_induction_on with
  | _ n ih =>
    by_cases h : n < 10
    · rw [toDigits_lt_ten n h]
      simp [digitsVal, digitVal_digitChar n h]
    · rw [toDigits_ge_ten n (by omega), digitsVal_append_singleton,
        ih (n / 10) (Nat.div_lt_self (by omega) (by norm_num)),
        digitVal_digitChar _ (Nat.mod_lt _ (by norm_num))]
      omega

theorem toDigits_ne_underscore (n : ℕ) :
    ∀ c ∈ Nat.toDigits 10 n, c ≠ '_' := by
  induction n using Nat.strong_induction_on with
  | _ n ih =>
    intro c hc
    by_cases h : n < 10
    · rw [toDigits_lt_ten n h] at hc
      simp at hc
      subst hc
      exact digitChar_ne_underscore n h
    · rw [toDigits_ge_ten n (by omega)] at hc
      rcases List.mem_append.mp hc with hc | hc
      · exact ih (n / 10) (Nat.div_lt_self (by omega) (by norm_num)) c hc
      · simp at hc
        subst hc
        exact digitChar_ne_underscore _ (Nat.mod_lt _ (by norm_num))

theorem repr_data (n : ℕ) : (Nat.repr n).data = Nat.toDigits 10 n := rfl

theorem split_at_sep (ys ys' : List Char) :
    ∀ (xs xs' : List Char), '_' ∉ xs → '_' ∉ xs' →
      xs ++ '_' :: ys = xs' ++ '_' :: ys' → xs = xs' ∧ ys = ys' := by
  intro xs
  induction xs with
  | nil =>
    intro xs' _ hx' heq
    cases xs' with
    | nil => simpa using heq
    | cons a as =>
      simp only [List.nil_append, List.cons_append, List.cons.injEq] at heq
      exact absurd (heq.1.symm ▸ List.mem_cons_self a as) hx'
  | cons a as ih =>
    intro xs' hx hx' heq
    cases xs' with
    | nil =>
      simp only [List.cons_append, List.nil_append, List.cons.injEq] at heq
      exact absurd (heq.1 ▸ List.mem_cons_self a as) hx
    | cons a' as' =>
      simp only [List.cons_append, List.cons.injEq] at heq
      obtain ⟨rfl, heq⟩ := heq
      have := ih as' (fun h => hx (List.mem_cons_of_mem _ h))
        (fun h => hx' (List.mem_cons_of_mem _ h)) heq
      exact ⟨by rw [this.1], this.2⟩

theorem getNodeId_data (s : String) (i : ℕ) :
    (getNodeId s i).data = s.data ++ '_' :: (Nat.toDigits 10 i) := by
  show (s ++ "_" ++ Nat.repr i).data = _
  rw [String.data_append, String.data_append, repr_data, List.append_assoc]
  rfl

theorem getNodeId_inj (s t : String) (i j : ℕ)
    (h : getNodeId s i = getNodeId t j) : s = t ∧ i = j := by
  have hd : s.data ++ '_' :: Nat.toDigits 10 i = t.data ++ '_' :: Nat.toDigits 10 j := by
    rw [← getNodeId_data, ← getNodeId_data, h]
  have hrev := congrArg List.reverse hd
  simp only [List.reverse_append, List.reverse_cons] at hrev
  rw [List.append_assoc, List.append_assoc] at hrev
  have hrev' : (Nat.toDigits 10 i).reverse ++ '_' :: s.data.reverse =
      (Nat.toDigits 10 j).reverse ++ '_' :: t.data.reverse := by
    simpa using hrev
  have hsplit := split_at_sep s.data.reverse t.data.reverse
    (Nat.toDigits 10 i).reverse (Nat.toDigits 10 j).reverse
    (fun hmem => toDigits_ne_underscore i '_' (List.mem_reverse.mp hmem) rfl)
    (fun hmem => toDigits_ne_underscore j '_' (List.mem_reverse.mp hmem) rfl)
    hrev'
  constructor
  · apply String.ext
    have := congrArg List.reverse hsplit.2
    simpa using this
  · have hdig : Nat.toDigits 10 i = Nat.toDigits 10 j := by
      have := congrArg List.reverse hsplit.1
      simpa using this
    rw [← digitsVal_toDigits i, ← digitsVal_toDigits j, hdig]

/-! ## Graph-construction lemmas -/

theorem mapGet_mapSet_cases {α : Type*} (m : List (String × α)) (k x : String) (v : α) :
    mapGet (mapSet m k v) x = if k = x then some v else mapGet m x := by
  by_cases h : k = x
  · subst h; simp
  · simp [h, mapGet_mapSet_ne m k x v h]

theorem hasNeighborEdge_none (nodes : NodesMap) (a b : String)
    (h : mapGet nodes a = none) : hasNeighborEdge nodes a b = false := by
  unfold hasNeighborEdge; rw [h]

theorem hasNeighborEdge_some (nodes : NodesMap) (a b : String) (n : RoutingNode)
    (h : mapGet nodes a = some n) :
    hasNeighborEdge nodes a b = (mapGet n.neighbors b).isSome := by
  unfold hasNeighborEdge; rw [h]

theorem hasNeighborEdge_congr (nodes nodes' : NodesMap) (a b : String)
    (h : mapGet nodes' a = mapGet nodes a) :
    hasNeighborEdge nodes' a b = hasNeighborEdge nodes a b := by
  unfold hasNeighborEdge; rw [h]

theorem mapGet_addNeighborConnection (nodes : NodesMap) (f t : String) (d : ℚ)
    (sid : String) (x : String) :
    mapGet (addNeighborConnection nodes f t d sid) x =
      if x = f then
        (mapGet nodes f).map
          (fun n => { n with neighbors := mapSet n.neighbors t ⟨d, sid⟩ })
      else mapGet nodes x := by
  unfold addNeighborConnection
  cases hf : mapGet nodes f with
  | none =>
    by_cases hx : x = f
    · subst hx; simp [hf]
    · simp [hx]
  | some n =>
    by_cases hx : x = f
    · subst hx; simp [hf]
    · simp [hx, mapGet_mapSet_ne nodes f x _ (fun hh => hx hh.symm)]

theorem addNeighborConnection_isSome (nodes : NodesMap) (f t : String) (d : ℚ)
    (sid : String) (x : String) :
    (mapGet (addNeighborConnection nodes f t d sid) x).isSome =
      (mapGet nodes x).isSome := by
  rw [mapGet_addNeighborConnection]
  by_cases hx : x = f
  · subst hx; simp
  · simp [hx]

theorem addNeighborConnection_edge_iff (nodes : NodesMap) (f t : String) (d : ℚ)
    (sid : String) (a b : String) :
    hasNeighborEdge (addNeighborConnection nodes f t d sid) a b = true ↔
      ((a = f ∧ b = t ∧ (mapGet nodes f).isSome = true) ∨
        hasNeighborEdge nodes a b = true) := by
  have hget := mapGet_addNeighborConnection nodes f t d sid a
  by_cases ha : a = f
  · subst ha
    rw [if_pos rfl] at hget
    cases hf : mapGet nodes a with
    | none =>
      rw [hf] at hget
      rw [hasNeighborEdge_congr nodes _ a b (by rw [hget, hf]; rfl)]
      simp [hasNeighborEdge_none nodes a b hf, hf]
    | some n =>
      rw [hf] at hget
      simp only [Option.map_some'] at hget
      rw [hasNeighborEdge_some _ a b _ hget, hasNeighborEdge_some nodes a b n hf]
      have hproj : ({ n with neighbors := mapSet n.neighbors t ⟨d, sid⟩ } :
          RoutingNode).neighbors = mapSet n.neighbors t ⟨d, sid⟩ := rfl
      rw [hproj, mapGet_mapSet_cases]
      by_cases hb : t = b
      · subst hb; simp [hf]
      · simp [hb, show ¬ b = t from fun hh => hb hh.symm, hf]
  · rw [if_neg ha] at hget
    rw [hasNeighborEdge_congr nodes _ a b hget]
    simp [ha]

theorem createStep_mapGet (nodes : NodesMap) (k : String) (c : Coordinate) (x : String) :
    mapGet (if (mapGet nodes k).isSome then nodes
            else mapSet nodes k (newRoutingNode k c)) x =
      if x = k then some ((mapGet nodes k).getD (newRoutingNode k c))
      else mapGet nodes x := by
  cases hk : mapGet nodes k with
  | some v =>
    by_cases hx : x = k
    · subst hx; simp [hk]
    · simp [hk, hx]
  | none =>
    by_cases hx : x = k
    · subst hx; simp [hk]
    · simp [hk, hx, mapGet_mapSet_ne nodes k x _ (fun hh => hx hh.symm)]

theorem createStep_edge (nodes : NodesMap) (k : String) (c : Coordinate) (a b : String) :
    hasNeighborEdge (if (mapGet nodes k).isSome then nodes
      else mapSet nodes k (newRoutingNode k c)) a b = hasNeighborEdge nodes a b := by
  have hget := createStep_mapGet nodes k c a
  by_cases hx : a = k
  · subst hx
    rw [if_pos rfl] at hget
    cases hk : mapGet nodes a with
    | none =>
      rw [hk] at hget
      rw [hasNeighborEdge_some _ a b _ hget, hasNeighborEdge_none nodes a b hk]
      rfl
    | some v =>
      rw [hk] at hget
      exact hasNeighborEdge_congr nodes _ a b (by rw [hget, hk]; rfl)
  · rw [if_neg hx] at hget
    exact hasNeighborEdge_congr nodes _ a b hget

theorem bSN_edge_mono (dist : Coordinate → Coordinate → ℚ) (mode : RoutingMode)
    (seg : RoadSegment) :
    ∀ (cs : List Coordinate) (idx : ℕ) (prev : Option Coordinate) (nodes : NodesMap)
      (a b : String), hasNeighborEdge nodes a b = true →
      hasNeighborEdge (buildSegmentNodes dist mode seg idx prev cs nodes) a b = true := by
  intro cs
  induction cs with
  | nil => intro idx prev nodes a b h; simpa [buildSegmentNodes] using h
  | cons c rest ih =>
    intro idx prev nodes a b h
    cases prev with
    | none =>
      simp only [buildSegmentNodes]
      apply ih
      rw [createStep_edge]
      exact h
    | some p =>
      simp only [buildSegmentNodes]
      apply ih
      split
      · exact (addNeighborConnection_edge_iff _ _ _ _ _ _ _).mpr (Or.inr
          ((addNeighborConnection_edge_iff _ _ _ _ _ _ _).mpr (Or.inr (by
            rw [createStep_edge]; exact h))))
      · exact (addNeighborConnection_edge_iff _ _ _ _ _ _ _).mpr (Or.inr (by
          rw [createStep_edge]; exact h))

theorem createStep_inv (seg : RoadSegment) (nodes : NodesMap) (idx : ℕ) (c : Coordinate)
    (hinv : ∀ j, j < idx → (mapGet nodes (getNodeId seg.id j)).isSome = true) :
    ∀ j, j < idx + 1 →
      (mapGet (if (mapGet nodes (getNodeId seg.id idx)).isSome then nodes
        else mapSet nodes (getNodeId seg.id idx) (newRoutingNode (getNodeId seg.id idx) c))
        (getNodeId seg.id j)).isSome = true := by
  intro j hj
  rw [createStep_mapGet]
  by_cases h : getNodeId seg.id j = getNodeId seg.id idx
  · simp [h]
  · simp only [h, if_false]
    rcases Nat.lt_succ_iff_lt_or_eq.mp hj with hj' | rfl
    · exact hinv j hj'
    · exact absurd rfl h

theorem bSN_edge_src (dist : Coordinate → Coordinate → ℚ) (mode : RoutingMode)
    (seg : RoadSegment) :
    ∀ (cs : List Coordinate) (idx : ℕ) (prev : Option Coordinate) (nodes : NodesMap)
      (a b : String),
      hasNeighborEdge (buildSegmentNodes dist mode seg idx prev cs nodes) a b = true →
      hasNeighborEdge nodes a b = true ∨
        ∃ k, idx ≤ k ∧ k < idx + cs.length ∧ (prev = none → idx < k) ∧
          ((a = getNodeId seg.id k ∧ b = getNodeId seg.id (k - 1)) ∨
            ((!seg.oneWay || decide (mode ≠ RoutingMode.car)) = true ∧
              a = getNodeId seg.id (k - 1) ∧ b = getNodeId seg.id k)) := by
  intro cs
  induction cs with
  | nil =>
    intro idx prev nodes a b h
    simp only [buildSegmentNodes] at h
    exact Or.inl h
  | cons c rest ih =>
    intro idx prev nodes a b h
    cases prev with
    | none =>
      simp only [buildSegmentNodes] at h
      rcases ih _ _ _ _ _ h with h' | ⟨k, hk1, hk2, _, hk4⟩
      · rw [createStep_edge] at h'
        exact Or.inl h'
      · refine Or.inr ⟨k, by omega, ?_, fun _ => by omega, hk4⟩
        simp only [List.length_cons]
        omega
    | some p =>
      simp only [buildSegmentNodes] at h
      rcases ih _ _ _ _ _ h with h' | ⟨k, hk1, hk2, _, hk4⟩
      · split at h'
        next hcond =>
          rcases (addNeighborConnection_edge_iff _ _ _ _ _ _ _).mp h' with ⟨ha, hb, _⟩ | h''
          · exact Or.inr ⟨idx, le_refl _, by simp, fun hc => Option.noConfusion hc,
              Or.inr ⟨hcond, ha, hb⟩⟩
          · rcases (addNeighborConnection_edge_iff _ _ _ _ _ _ _).mp h'' with
              ⟨ha, hb, _⟩ | h'''
            · exact Or.inr ⟨idx, le_refl _, by simp, fun hc => Option.noConfusion hc,
                Or.inl ⟨ha, hb⟩⟩
            · rw [createStep_edge] at h'''
              exact Or.inl h'''
        next hcond =>
          rcases (addNeighborConnection_edge_iff _ _ _ _ _ _ _).mp h' with ⟨ha, hb, _⟩ | h''
          · exact Or.inr ⟨idx, le_refl _, by simp, fun hc => Option.noConfusion hc,
              Or.inl ⟨ha, hb⟩⟩
          · rw [createStep_edge] at h''
            exact Or.inl h''
      · refine Or.inr ⟨k, by omega, ?_, fun _ => by omega, hk4⟩
        simp only [List.length_cons]
        omega

theorem bSN_adds (dist : Coordinate → Coordinate → ℚ) (mode : RoutingMode)
    (seg : RoadSegment) :
    ∀ (cs : List Coordinate) (idx : ℕ) (prev : Option Coordinate) (nodes : NodesMap),
      (∀ j, j < idx → (mapGet nodes (getNodeId seg.id j)).isSome = true) →
      ∀ k, 0 < k → idx ≤ k → k < idx + cs.length → (k = idx → prev ≠ none) →
      hasNeighborEdge (buildSegmentNodes dist mode seg idx prev cs nodes)
          (getNodeId seg.id k) (getNodeId seg.id (k - 1)) = true ∧
        ((!seg.oneWay || decide (mode ≠ RoutingMode.car)) = true →
          hasNeighborEdge (buildSegmentNodes dist mode seg idx prev cs nodes)
            (getNodeId seg.id (k - 1)) (getNodeId seg.id k) = true) := by
  intro cs
  induction cs with
  | nil =>
    intro idx prev nodes _ k _ hk1 hk2 _
    simp only [List.length_nil, Nat.add_zero] at hk2
    omega
  | cons c rest ih =>
    intro idx prev nodes hinv k hk0 hk1 hk2 hk3
    by_cases hkidx : k = idx
    · subst hkidx
      cases prev with
      | none => exact absurd rfl (hk3 rfl)
      | some p =>
        simp only [buildSegmentNodes]
        constructor
        · apply bSN_edge_mono
          split
          · exact (addNeighborConnection_edge_iff _ _ _ _ _ _ _).mpr (Or.inr
              ((addNeighborConnection_edge_iff _ _ _ _ _ _ _).mpr (Or.inl ⟨rfl, rfl, by
                rw [createStep_mapGet]; simp⟩)))
          · exact (addNeighborConnection_edge_iff _ _ _ _ _ _ _).mpr (Or.inl ⟨rfl, rfl, by
              rw [createStep_mapGet]; simp⟩)
        · intro hcond
          apply bSN_edge_mono
          rw [if_pos hcond]
          refine (addNeighborConnection_edge_iff _ _ _ _ _ _ _).mpr (Or.inl ⟨rfl, rfl, ?_⟩)
          rw [addNeighborConnection_isSome, createStep_mapGet]
          by_cases hv : getNodeId seg.id (k - 1) = getNodeId seg.id k
          · simp [hv]
          · simp only [hv, if_false]
            exact hinv (k - 1) (by omega)
    · have hik : idx < k := by omega
      cases prev with
      | none =>
        simp only [buildSegmentNodes]
        refine ih (idx + 1) (some c) _ (createStep_inv seg nodes idx c hinv)
          k hk0 (by omega) ?_ (fun _ hc => Option.noConfusion hc)
        simp only [List.length_cons] at hk2
        omega
      | some p =>
        simp only [buildSegmentNodes]
        refine ih (idx + 1) (some c) _ ?_ k hk0 (by omega) ?_
          (fun _ hc => Option.noConfusion hc)
        · intro j hj
          split
          · rw [addNeighborConnection_isSome, addNeighborConnection_isSome]
            exact createStep_inv seg nodes idx c hinv j hj
          · rw [addNeighborConnection_isSome]
            exact createStep_inv seg nodes idx c hinv j hj
        · simp only [List.length_cons] at hk2
          omega

theorem foldl_edge_mono (dist : Coordinate → Coordinate → ℚ) (mode : RoutingMode) :
    ∀ (segs : List RoadSegment) (nodes : NodesMap) (a b : String),
      hasNeighborEdge nodes a b = true →
      hasNeighborEdge (segs.foldl
        (fun nodes segment =>
          if isSegmentAccessible mode segment then
            buildSegmentNodes dist mode segment 0 none segment.nodes nodes
          else nodes) nodes) a b = true := by
  intro segs
  induction segs with
  | nil => intro nodes a b h; simpa using h
  | cons s rest ih =>
    intro nodes a b h
    simp only [List.foldl_cons]
    apply ih
    split
    · exact bSN_edge_mono dist mode s s.nodes 0 none nodes a b h
    · exact h

theorem buildGraph_edge_src (dist : Coordinate → Coordinate → ℚ) (mode : RoutingMode) :
    ∀ (segs : List RoadSegment) (nodes : NodesMap) (a b : String),
      hasNeighborEdge (segs.foldl
        (fun nodes segment =>
          if isSegmentAccessible mode segment then
            buildSegmentNodes dist mode segment 0 none segment.nodes nodes
          else nodes) nodes) a b = true →
      hasNeighborEdge nodes a b = true ∨
        ∃ s, s ∈ segs ∧ isSegmentAccessible mode s = true ∧
          ∃ k, 0 < k ∧ k < s.nodes.length ∧
            ((a = getNodeId s.id k ∧ b = getNodeId s.id (k - 1)) ∨
              ((!s.oneWay || decide (mode ≠ RoutingMode.car)) = true ∧
                a = getNodeId s.id (k - 1) ∧ b = getNodeId s.id k)) := by
  intro segs
  induction segs with
  | nil => intro nodes a b h; exact Or.inl (by simpa using h)
  | cons s rest ih =>
    intro nodes a b h
    simp only [List.foldl_cons] at h
    rcases ih _ _ _ h with h' | ⟨t, ht1, ht2, hk⟩
    · split at h'
      next hacc =>
        rcases bSN_edge_src dist mode s s.nodes 0 none nodes a b h' with
          h'' | ⟨k, _, hk2, hk3, hk4⟩
        · exact Or.inl h''
        · exact Or.inr ⟨s, List.mem_cons_self s rest, hacc, k, hk3 rfl,
            by simpa using hk2, hk4⟩
      next hacc => exact Or.inl h'
    · exact Or.inr ⟨t, List.mem_cons_of_mem s ht1, ht2, hk⟩

theorem buildGraph_adds (dist : Coordinate → Coordinate → ℚ) (mode : RoutingMode) :
    ∀ (segs : List RoadSegment) (nodes : NodesMap) (s : RoadSegment),
      s ∈ segs → isSegmentAccessible mode s = true →
      ∀ k, 0 < k → k < s.nodes.length →
      hasNeighborEdge (segs.foldl
          (fun nodes segment =>
            if isSegmentAccessible mode segment then
              buildSegmentNodes dist mode segment 0 none segment.nodes nodes
            else nodes) nodes)
          (getNodeId s.id k) (getNodeId s.id (k - 1)) = true ∧
        ((!s.oneWay || decide (mode ≠ RoutingMode.car)) = true →
          hasNeighborEdge (segs.foldl
            (fun nodes segment =>
              if isSegmentAccessible mode segment then
                buildSegmentNodes dist mode segment 0 none segment.nodes nodes
              else nodes) nodes)
            (getNodeId s.id (k - 1)) (getNodeId s.id k) = true) := by
  intro segs
  induction segs with
  | nil => intro nodes s hmem; exact absurd hmem (List.not_mem_nil s)
  | cons t rest ih =>
    intro nodes s hmem hacc k hk0 hklen
    simp only [List.foldl_cons]
    rcases List.mem_cons.mp hmem with rfl | hmem'
    · have hadd := bSN_adds dist mode s s.nodes 0 none nodes
        (fun j hj => absurd hj (Nat.not_lt_zero j)) k hk0 (Nat.zero_le k)
        (by simpa using hklen) (fun hk => absurd (hk ▸ hk0) (lt_irrefl 0))
      rw [if_pos hacc]
      exact ⟨foldl_edge_mono dist mode rest _ _ _ hadd.1,
        fun hcond => foldl_edge_mono dist mode rest _ _ _ (hadd.2 hcond)⟩
    · exact ih _ s hmem' hacc k hk0 hklen

/-- Claim C6 counterexample: The claim says graph construction always registers
the directed edge `vertex[i-1] → vertex[i]`, and the reverse edge
`vertex[i] → vertex[i-1]` exactly when the segment is not one-way or the mode
is not car.  The source does the mirror image: line 52 always connects the
current vertex back to its predecessor (`vertex[i] → vertex[i-1]`), and the
`vertex[i-1] → vertex[i]` edge is the conditional one — so on a one-way
segment in car mode the forward edge `A_0 → A_1` is absent while the backward
edge `A_1 → A_0` is present. -/
theorem buildGraph_oneway_direction_cex :
    segOW.oneWay = true ∧ getNodeId segOW.id 0 = "A_0" ∧ getNodeId segOW.id 1 = "A_1" ∧
    hasNeighborEdge (buildGraph dist01 [segOW] RoutingMode.car) "A_0" "A_1" = false ∧
    hasNeighborEdge (buildGraph dist01 [segOW] RoutingMode.car) "A_1" "A_0" = true := by
  refine ⟨by decide, by decide, by decide, by decide, by decide⟩

/-- Claim C6 amended: For every segment list with pairwise-distinct segment
ids, every segment passing the mode filter, and every adjacent vertex pair
`(i-1, i)`, graph construction registers the directed edge
`vertex[i] → vertex[i-1]` always, and registers `vertex[i-1] → vertex[i]` if
and only if the segment is not one-way or the travel mode is not car (so in
bicycle and pedestrian mode every edge is bidirectional). -/
theorem buildGraph_edge_rule (dist : Coordinate → Coordinate → ℚ)
    (segs : List RoadSegment) (mode : RoutingMode) (s : RoadSegment) (i : ℕ)
    (hmem : s ∈ segs) (hacc : isSegmentAccessible mode s = true)
    (hnodup : (segs.map RoadSegment.id).Nodup)
    (hi0 : 0 < i) (hilen : i < s.nodes.length) :
    hasNeighborEdge (buildGraph dist segs mode) (getNodeId s.id i)
        (getNodeId s.id (i - 1)) = true ∧
      (hasNeighborEdge (buildGraph dist segs mode) (getNodeId s.id (i - 1))
          (getNodeId s.id i) = true ↔ (s.oneWay = false ∨ mode ≠ RoutingMode.car)) := by
  have hcond_iff : ((!s.oneWay || decide (mode ≠ RoutingMode.car)) = true) ↔
      (s.oneWay = false ∨ mode ≠ RoutingMode.car) := by
    cases how : s.oneWay <;> simp
  unfold buildGraph
  have hadds := buildGraph_adds dist mode segs [] s hmem hacc i hi0 hilen
  refine ⟨hadds.1, ⟨?_, fun hc => hadds.2 (hcond_iff.mpr hc)⟩⟩
  intro hedge
  rcases buildGraph_edge_src dist mode segs [] _ _ hedge with h0 | h0
  · rw [hasNeighborEdge_none ([] : NodesMap) (getNodeId s.id (i - 1))
      (getNodeId s.id i) rfl] at h0
    exact Bool.noConfusion h0
  · obtain ⟨t, htmem, _, k, hk0, _, hpat⟩ := h0
    rcases hpat with ⟨ha, hb⟩ | ⟨hcond, ha, hb⟩
    · obtain ⟨_, hki⟩ := getNodeId_inj s.id t.id (i - 1) k ha
      obtain ⟨_, hki2⟩ := getNodeId_inj s.id t.id i (k - 1) hb
      omega
    · obtain ⟨hts, _⟩ := getNodeId_inj s.id t.id (i - 1) (k - 1) ha
      have hts' : t = s := List.inj_on_of_nodup_map hnodup htmem hmem hts.symm
      subst hts'
      exact hcond_iff.mp hcond

/-- Witness for `buildGraph_edge_rule` on a concrete two-way segment in car
mode. -/
theorem buildGraph_edge_rule_witness :
    hasNeighborEdge (buildGraph dist01 [segA] RoutingMode.car) (getNodeId segA.id 1)
        (getNodeId segA.id 0) = true ∧
      (hasNeighborEdge (buildGraph dist01 [segA] RoutingMode.car) (getNodeId segA.id 0)
          (getNodeId segA.id 1) = true ↔
        (segA.oneWay = false ∨ RoutingMode.car ≠ RoutingMode.car)) :=
  buildGraph_edge_rule dist01 [segA] RoutingMode.car segA 1 (by decide) (by decide)
    (by decide) (by decide) (by decide)
